import Mathlib

/-!
Verification development for the `doppler secrets download` cache/fallback
subsystem (`pkg/cmd/secrets.go`, function `downloadSecrets`).

The command-level control flow (flag normalisation, passphrase checks,
format branching, stdout/file output) is embedded directly from the Go
source.  The fetch orchestrator (`controllers` package), the crypto codec
(`crypto` package) and the path helpers are not part of the provided
sources; they are modelled from the specification, and each such
definition says so in its doc comment.
-/

namespace Doppler

/-- Fetch policy: the five booleans computed by `downloadSecrets`
(`secrets.go` lines 257-261) and passed to the fetch orchestrator. -/
structure FetchPolicy where
  cacheEnabled : Bool
  fallbackEnabled : Bool
  fallbackReadonly : Bool
  fallbackOnly : Bool
  exitOnWriteFailure : Bool
deriving DecidableEq

/-- Result of reading the encrypted cache entry (spec 4.4 `readEntry`):
missing file, failed decryption/validation, or a decrypted payload. -/
inductive CacheRead where
  | notFound
  | corrupt
  | ok (payload : List Nat)
deriving DecidableEq

/-- Remote service answer to a conditional fetch that presented a
freshness token (spec 6 `conditionalFetch`). -/
inductive RemoteResp where
  | unchanged
  | changed (payload : List Nat) (tok : String)
  | failure
deriving DecidableEq

/-- Environment of one orchestrator run: the state of the local cache and
the responses the remote service would give.  `remoteNoToken = none`
means the unconditional fetch fails. -/
structure OrchEnv where
  cacheEntry : CacheRead
  storedToken : Option String
  remoteWithToken : RemoteResp
  remoteNoToken : Option (List Nat × String)
  writeOk : Bool
deriving DecidableEq

/-- Observable orchestrator events. -/
inductive FEv where
  | networkCall (token : Option String)
  | cacheRead
  | cacheWrite (ok : Bool)
  | warnStale
  | warnWriteFailure
deriving DecidableEq

/-- Orchestrator outcome: a payload, or a fatal error terminating the
invocation. -/
inductive FetchOutcome where
  | done (payload : List Nat)
  | fatal
deriving DecidableEq

/-- Whether a cache entry file exists on disk (spec 4.5 branch 3). -/
def entryExists : CacheRead → Bool
  | .notFound => false
  | _ => true

/-- Modelled from the spec (4.5 branch 3, `controllers` package not under
src/): handling of a remote fetch that returned a changed payload.  If
`fallback-readonly` is false the payload is written to the cache store; a
write failure is a warning, fatal only under `exit-on-write-failure`. -/
def handleChanged (pol : FetchPolicy) (oenv : OrchEnv) (p : List Nat) : List FEv × FetchOutcome :=
  if pol.fallbackReadonly then ([], .done p)
  else if oenv.writeOk then ([.cacheWrite true], .done p)
  else if pol.exitOnWriteFailure then ([.cacheWrite false], .fatal)
  else ([.cacheWrite false, .warnWriteFailure], .done p)

/-- Modelled from the spec (4.5 branch 3, `controllers` package not under
src/): handling of a failed remote call — fall back to the local cache
entry when readable, with a stale-data warning; otherwise fatal. -/
def handleRemoteFailure (pol : FetchPolicy) (oenv : OrchEnv) : List FEv × FetchOutcome :=
  if !pol.fallbackReadonly || entryExists oenv.cacheEntry then
    match oenv.cacheEntry with
    | .ok p => ([.cacheRead, .warnStale], .done p)
    | _ => ([.cacheRead], .fatal)
  else ([], .fatal)

/-- Modelled from the spec (4.5, `controllers` package not under src/):
an unconditional remote fetch (no freshness token) followed by the
changed/failure handling. -/
def fullFetch (pol : FetchPolicy) (oenv : OrchEnv) : List FEv × FetchOutcome :=
  match oenv.remoteNoToken with
  | some (p, _) =>
    let r := handleChanged pol oenv p
    (.networkCall none :: r.1, r.2)
  | none =>
    let r := handleRemoteFailure pol oenv
    (.networkCall none :: r.1, r.2)

/-- Freshness token presented to the remote service: the locally stored
token when `cache-enabled`, else absent (spec 4.5 branch 3). -/
def presentedToken (pol : FetchPolicy) (oenv : OrchEnv) : Option String :=
  if pol.cacheEnabled then oenv.storedToken else none

/-- Modelled from the spec (4.5, `controllers.fetchSecrets` not under
src/): the fetch orchestrator state machine.  Branch 1: fallback disabled
means a plain remote fetch with any error fatal.  Branch 2:
`fallback-only` reads the cache entry exclusively.  Branch 3: conditional
remote fetch with the presented token, reusing the cached payload on
`unchanged` (re-issuing a token-less fetch when that payload is
unreadable), writing on `changed`, and falling back on failure. -/
def fetchOrchestrator (pol : FetchPolicy) (oenv : OrchEnv) : List FEv × FetchOutcome :=
  if pol.fallbackEnabled = false then
    match oenv.remoteNoToken with
    | some (p, _) => ([.networkCall none], .done p)
    | none => ([.networkCall none], .fatal)
  else if pol.fallbackOnly = true then
    match oenv.cacheEntry with
    | .ok p => ([.cacheRead], .done p)
    | _ => ([.cacheRead], .fatal)
  else
    match presentedToken pol oenv with
    | none => fullFetch pol oenv
    | some t =>
      match oenv.remoteWithToken with
      | .unchanged =>
        match oenv.cacheEntry with
        | .ok p => ([.networkCall (some t), .cacheRead], .done p)
        | _ =>
          let r := fullFetch pol oenv
          (.networkCall (some t) :: .cacheRead :: r.1, r.2)
      | .changed p _ =>
        let r := handleChanged pol oenv p
        (.networkCall (some t) :: r.1, r.2)
      | .failure =>
        let r := handleRemoteFailure pol oenv
        (.networkCall (some t) :: r.1, r.2)

/-- The single error kind of the crypto codec (spec 4.3: `decrypt` yields a
plaintext or an `AuthenticationError`; an empty passphrase is never
accepted as valid, so it is rejected with the same error kind). -/
inductive CryptoError where
  | authenticationError
deriving DecidableEq

/-- Modelled from the spec (6, `crypto` package not under src/): the
persisted blob layout, `[format-version][KDF-salt][cipher-nonce]
[ciphertext][authentication-tag]`.  The tag of a real AEAD binds the
ciphertext to the key; here it is idealised by recording the passphrase
and the ciphertext it authenticates, which is what makes the absolute
fail-closed property of the spec hold. -/
structure Blob where
  version : Nat
  salt : Nat
  nonce : Nat
  ct : List Nat
  tagKey : String
  tagCt : List Nat
deriving DecidableEq

/-- Modelled from the spec (4.3): the key stream derived from the
passphrase by the KDF, reduced to a single additive pad. -/
def deriveKey (pass : String) : Nat :=
  pass.length + 1

/-- Modelled from the spec (4.3, `crypto.Encrypt` not under src/):
symmetric authenticated encryption of a byte payload.  An empty
passphrase is never accepted. -/
def cryptoEncrypt (pass : String) (plaintext : List Nat) : Except CryptoError Blob :=
  if pass = "" then .error .authenticationError
  else
    let ct := plaintext.map (fun b => b + deriveKey pass)
    .ok { version := 1, salt := 0, nonce := 0, ct := ct, tagKey := pass, tagCt := ct }

/-- Modelled from the spec (4.3, `crypto.Decrypt` not under src/):
authenticated decryption; fails closed whenever the tag does not
authenticate the blob under the supplied passphrase. -/
def cryptoDecrypt (pass : String) (b : Blob) : Except CryptoError (List Nat) :=
  if pass = "" then .error .authenticationError
  else if b.tagKey = pass then
    if b.tagCt = b.ct then .ok (b.ct.map (fun c => c - deriveKey pass))
    else .error .authenticationError
  else .error .authenticationError

/-- Command-line flags of `doppler secrets download` relevant to
`downloadSecrets` (`secrets.go` lines 396-408).  `changed` lists the
flag names the user explicitly set; `fileArg` is the optional positional
file path. -/
structure Flags where
  noFile : Bool
  noFallback : Bool
  noCache : Bool
  fallbackReadonly : Bool
  fallbackOnly : Bool
  noExitOnWriteFailure : Bool
  formatString : String
  changed : List String
  fileArg : Option String
deriving DecidableEq

/-- Values supplied by the external collaborators of `downloadSecrets`:
configuration token, resolved passphrases, resolved paths, orchestrator
environment, the plain remote download used for env/yaml formats, and
filesystem outcomes. -/
structure DlEnv where
  token : String
  fallbackPassphrase : String
  passphrase : String
  fallbackPath : String
  legacyFallbackPath : String
  metadataFilePath : String
  defaultPath : String
  orch : OrchEnv
  remoteDownload : Option (List Nat)
  filePathOk : Bool
  outputWriteOk : Bool
deriving DecidableEq

/-- Observable events of one `downloadSecrets` run. -/
inductive Ev where
  | passRead (name : String)
  | warnFlag (name : String)
  | initFallbackDir
  | resolveMetadata (path : String)
  | fetch (e : FEv)
  | remoteDownloadCall
  | printStdout (body : List Nat)
  | encryptOutput (pass : String)
  | writeOutput (path : String) (ok : Bool)
  | logDownloaded
deriving DecidableEq

/-- Outcome of one `downloadSecrets` run: completed normally or exited
fatally (`utils.HandleError`). -/
inductive DlOut where
  | completed
  | fatal
deriving DecidableEq

/-- The effective fallback-enabled value (`secrets.go` line 257):
`enableFallback := !utils.GetBoolFlag(cmd, "no-fallback")`. -/
def enableFallbackFlag (f : Flags) : Bool :=
  !f.noFallback

/-- The effective cache-enabled value (`secrets.go` line 258):
`enableCache := enableFallback && !utils.GetBoolFlag(cmd, "no-cache")`. -/
def enableCacheFlag (f : Flags) : Bool :=
  enableFallbackFlag f && !f.noCache

/-- The fetch policy `downloadSecrets` passes to the fetch orchestrator
(`secrets.go` lines 257-261 and 307). -/
def policyOf (f : Flags) : FetchPolicy :=
  { cacheEnabled := enableCacheFlag f
    fallbackEnabled := enableFallbackFlag f
    fallbackReadonly := f.fallbackReadonly
    fallbackOnly := f.fallbackOnly
    exitOnWriteFailure := !f.noExitOnWriteFailure }

/-- The metadata file path computed by `downloadSecrets` (`secrets.go`
lines 300-306): resolved via `controllers.MetadataFilePath` only when
`enableCache`, otherwise left empty. -/
def metadataPathOf (f : Flags) (d : DlEnv) : String :=
  if enableCacheFlag f then d.metadataFilePath else ""

/-- Output formats accepted by `doppler secrets download`
(`models.SecretsFormatList`: json, env, yaml). -/
inductive SecretsFormat where
  | json
  | env
  | yaml
deriving DecidableEq

/-- Format resolution (`secrets.go` lines 265-289): the `--format` flag
value is matched against the valid format list, an unrecognised value is
fatal; an empty string leaves the default JSON format. -/
def resolveFormat (formatString : String) : Option SecretsFormat :=
  if formatString = "" then some .json
  else if formatString = "json" then some .json
  else if formatString = "env" then some .env
  else if formatString = "yaml" then some .yaml
  else none

/-- The flag names `downloadSecrets` warns about when the format is not
JSON (`secrets.go` line 318). -/
def downloadWarnFlags : List String :=
  ["fallback", "fallback-only", "fallback-readonly", "no-exit-on-write-failure"]

/-- Output step of `downloadSecrets` once the output path is known
(`secrets.go` lines 348-364): require a non-empty passphrase, encrypt
the body, and write the file with restricted permissions, a write error
being fatal. -/
def afterPath (d : DlEnv) (pre : List Ev) (body : List Nat) (filePath : String) :
    List Ev × DlOut :=
  if d.passphrase = "" then (pre ++ [Ev.passRead "passphrase"], .fatal)
  else
    match cryptoEncrypt d.passphrase body with
    | .error _ => (pre ++ [Ev.passRead "passphrase", Ev.encryptOutput d.passphrase], .fatal)
    | .ok _ =>
      if d.outputWriteOk then
        (pre ++ [Ev.passRead "passphrase", Ev.encryptOutput d.passphrase,
                 Ev.writeOutput filePath true, Ev.logDownloaded], .completed)
      else
        (pre ++ [Ev.passRead "passphrase", Ev.encryptOutput d.passphrase,
                 Ev.writeOutput filePath false], .fatal)

/-- Tail of `downloadSecrets` after the body is obtained (`secrets.go`
lines 332-346): print to stdout under `--no-file` and return, otherwise
resolve the output file path (the positional argument when given, the
default file name of the format otherwise) and run the output step. -/
def afterBody (f : Flags) (d : DlEnv) (pre : List Ev) (body : List Nat) : List Ev × DlOut :=
  if f.noFile then (pre ++ [Ev.printStdout body], .completed)
  else
    match f.fileArg with
    | some a =>
      if d.filePathOk then afterPath d pre body a
      else (pre, .fatal)
    | none => afterPath d pre body d.defaultPath

/-- Events of the JSON fetch path up to and including the orchestrator
run (`secrets.go` lines 297-307): fallback directory initialisation when
`enableFallback`, metadata path resolution when `enableCache`, then the
orchestrator events. -/
def jsonTrace (f : Flags) (d : DlEnv) (pre : List Ev) : List Ev :=
  pre ++ (if enableFallbackFlag f then [Ev.initFallbackDir] else [])
      ++ (if enableCacheFlag f then [Ev.resolveMetadata (metadataPathOf f d)] else [])
      ++ (fetchOrchestrator (policyOf f) d.orch).1.map Ev.fetch

/-- JSON branch of `downloadSecrets` (`secrets.go` lines 297-313):
resolve the fallback and metadata paths as policy dictates, run the fetch
orchestrator, and marshal its payload as the body. -/
def jsonBranch (f : Flags) (d : DlEnv) (pre : List Ev) : List Ev × DlOut :=
  match (fetchOrchestrator (policyOf f) d.orch).2 with
  | .fatal => (jsonTrace f d pre, .fatal)
  | .done payload => afterBody f d (jsonTrace f d pre) payload

/-- Non-JSON branch of `downloadSecrets` (`secrets.go` lines 314-330):
fallback and cache are forcibly disabled, a warning is logged for each
flag of `downloadWarnFlags` the user changed, and the secrets are
downloaded directly from the remote service, any error being fatal. -/
def otherFormatBranch (f : Flags) (d : DlEnv) (pre : List Ev) : List Ev × DlOut :=
  let warns := (downloadWarnFlags.filter (fun s => f.changed.contains s)).map Ev.warnFlag
  match d.remoteDownload with
  | none => (pre ++ warns ++ [Ev.remoteDownloadCall], .fatal)
  | some body => afterBody f d (pre ++ warns ++ [Ev.remoteDownloadCall]) body

/-- Embedding of `downloadSecrets` (`secrets.go` lines 252-365): token
requirement, format resolution, fallback-passphrase requirement, then
the JSON fetch path or the direct download path, then the output step. -/
def downloadSecretsModel (f : Flags) (d : DlEnv) : List Ev × DlOut :=
  if d.token = "" then ([], .fatal)
  else
    match resolveFormat f.formatString with
    | none => ([], .fatal)
    | some format =>
      if d.fallbackPassphrase = "" then ([Ev.passRead "fallback-passphrase"], .fatal)
      else
        let pre := [Ev.passRead "fallback-passphrase"]
        if format = SecretsFormat.json then jsonBranch f d pre
        else otherFormatBranch f d pre

/-- Orchestrator event predicate: a cache write. -/
def isCacheWriteF : FEv → Bool
  | .cacheWrite _ => true
  | _ => false

/-- Orchestrator event predicate: a network call. -/
def isNetworkF : FEv → Bool
  | .networkCall _ => true
  | _ => false

/-- Event predicate: any fetch-orchestrator event. -/
def isFetchEv : Ev → Bool
  | .fetch _ => true
  | _ => false

/-- Event predicate: a cache read or cache write. -/
def isCacheAccessEv : Ev → Bool
  | .fetch .cacheRead => true
  | .fetch (.cacheWrite _) => true
  | _ => false

/-- Event predicate: a cache write. -/
def isCacheWriteEv : Ev → Bool
  | .fetch (.cacheWrite _) => true
  | _ => false

/-- Event predicate: a network call. -/
def isNetworkEv : Ev → Bool
  | .fetch (.networkCall _) => true
  | _ => false

/-- Event predicate: output-file encryption. -/
def isEncryptEv : Ev → Bool
  | .encryptOutput _ => true
  | _ => false

/-- Event predicate: output-file write. -/
def isOutputWriteEv : Ev → Bool
  | .writeOutput _ _ => true
  | _ => false

/-- Event predicate: metadata-path resolution. -/
def isMetaResolveEv : Ev → Bool
  | .resolveMetadata _ => true
  | _ => false

/-- Event predicate: the download-file passphrase is read. -/
def isDlPassReadEv : Ev → Bool
  | .passRead "passphrase" => true
  | _ => false

/-- Event predicate: a flag warning. -/
def isWarnFlagEv : Ev → Bool
  | .warnFlag _ => true
  | _ => false

/-- Event predicate: fallback directory initialisation. -/
def isInitFallbackEv : Ev → Bool
  | .initFallbackDir => true
  | _ => false

/-- Event predicate: events emitted by the output step of
`downloadSecrets` (everything after the body is obtained). -/
def isOutputPhaseEv : Ev → Bool
  | .passRead _ => true
  | .printStdout _ => true
  | .encryptOutput _ => true
  | .writeOutput _ _ => true
  | .logDownloaded => true
  | _ => false

/-- The flag names logged as warnings during one run. -/
def warnFlagsOf (tr : List Ev) : List String :=
  tr.filterMap fun e =>
    match e with
    | .warnFlag s => some s
    | _ => none

/-- Baseline flags: every boolean flag unset, JSON format, no positional
argument. -/
def baseFlags : Flags :=
  { noFile := false, noFallback := false, noCache := false, fallbackReadonly := false,
    fallbackOnly := false, noExitOnWriteFailure := false, formatString := "json",
    changed := [], fileArg := none }

/-- Baseline orchestrator environment: no cache on disk, unconditional
remote fetch succeeds, cache writes succeed. -/
def baseOrchEnv : OrchEnv :=
  { cacheEntry := .notFound, storedToken := none, remoteWithToken := .failure,
    remoteNoToken := some ([7], "etag1"), writeOk := true }

/-- Baseline collaborator environment: a configured token, non-empty
passphrases, resolved paths, a working filesystem. -/
def baseDlEnv : DlEnv :=
  { token := "tok1", fallbackPassphrase := "p@ss", passphrase := "p@ss2",
    fallbackPath := "fb", legacyFallbackPath := "fb-legacy", metadataFilePath := "md",
    defaultPath := "secrets.json", orch := baseOrchEnv, remoteDownload := some [3],
    filePathOk := true, outputWriteOk := true }

/-- Orchestrator environment in which persisting the fallback file
fails. -/
def writeFailOrchEnv : OrchEnv :=
  { baseOrchEnv with writeOk := false }

/-- Collaborator environment in which the fallback write fails. -/
def writeFailDlEnv : DlEnv :=
  { baseDlEnv with orch := writeFailOrchEnv }

/-- Collaborator environment whose resolved download-file passphrase is
empty. -/
def emptyPassDlEnv : DlEnv :=
  { baseDlEnv with passphrase := "" }

/-- Collaborator environment whose resolved fallback-file passphrase is
empty. -/
def emptyFallbackPassDlEnv : DlEnv :=
  { baseDlEnv with fallbackPassphrase := "" }

/-- Invocation requesting env format with the `no-cache` flag explicitly
changed. -/
def envFormatFlags : Flags :=
  { baseFlags with formatString := "env", noCache := true, changed := ["no-cache"] }

/-- Policy with `fallback-only` set while fallback is disabled. -/
def fallbackOnlyNoFallbackPolicy : FetchPolicy :=
  { cacheEnabled := false, fallbackEnabled := false, fallbackReadonly := false,
    fallbackOnly := true, exitOnWriteFailure := true }

/-- Invocation with both `--no-fallback` and `--fallback-only` set. -/
def fallbackOnlyNoFallbackFlags : Flags :=
  { baseFlags with noFallback := true, fallbackOnly := true }

/-- Invocation with only `--fallback-only` set. -/
def fallbackOnlyFlags : Flags :=
  { baseFlags with fallbackOnly := true }

/-- Policy running in the cache-only state: fallback enabled and
`fallback-only` set. -/
def cacheOnlyPolicy : FetchPolicy :=
  { cacheEnabled := true, fallbackEnabled := true, fallbackReadonly := false,
    fallbackOnly := true, exitOnWriteFailure := true }

/-- Invocation with the `no-file` flag set. -/
def noFileFlags : Flags :=
  { baseFlags with noFile := true }

theorem any_eq_false_of_all_disjoint {p q : Ev → Bool} (h : ∀ e, q e = true → p e = false)
    (s : List Ev) (hs : s.all q = true) : s.any p = false := by
  induction s with
  | nil => rfl
  | cons a t ih =>
    simp only [List.all_cons, Bool.and_eq_true] at hs
    simp [List.any_cons, h a hs.1, ih hs.2]

theorem afterPath_shape (d : DlEnv) (pre : List Ev) (body : List Nat) (fp : String) :
    ∃ s, (afterPath d pre body fp).1 = pre ++ s ∧ s.all isOutputPhaseEv = true := by
  unfold afterPath
  split
  · exact ⟨[Ev.passRead "passphrase"], rfl, rfl⟩
  · split
    · exact ⟨[Ev.passRead "passphrase", Ev.encryptOutput d.passphrase], rfl, rfl⟩
    · split
      · exact ⟨[Ev.passRead "passphrase", Ev.encryptOutput d.passphrase,
                Ev.writeOutput fp true, Ev.logDownloaded], rfl, rfl⟩
      · exact ⟨[Ev.passRead "passphrase", Ev.encryptOutput d.passphrase,
                Ev.writeOutput fp false], rfl, rfl⟩

theorem afterBody_shape (f : Flags) (d : DlEnv) (pre : List Ev) (body : List Nat) :
    ∃ s, (afterBody f d pre body).1 = pre ++ s ∧ s.all isOutputPhaseEv = true := by
  unfold afterBody
  split
  · exact ⟨[Ev.printStdout body], rfl, rfl⟩
  · split
    · split
      · exact afterPath_shape d pre body _
      · exact ⟨[], by simp, rfl⟩
    · exact afterPath_shape d pre body _

theorem afterBody_any_eq {p : Ev → Bool} (hp : ∀ e, isOutputPhaseEv e = true → p e = false)
    (f : Flags) (d : DlEnv) (pre : List Ev) (body : List Nat) :
    (afterBody f d pre body).1.any p = pre.any p := by
  obtain ⟨s, hs, hall⟩ := afterBody_shape f d pre body
  rw [hs, List.any_append, any_eq_false_of_all_disjoint hp s hall, Bool.or_false]

theorem map_fetch_any {p : Ev → Bool} {q : FEv → Bool} (hq : ∀ fe, p (Ev.fetch fe) = q fe)
    (l : List FEv) : (l.map Ev.fetch).any p = l.any q := by
  induction l with
  | nil => rfl
  | cons a t ih => simp [List.any_cons, hq, ih]

theorem any_map_warnFlag_false {p : Ev → Bool} (hwarn : ∀ s, p (Ev.warnFlag s) = false)
    (l : List String) : (l.map Ev.warnFlag).any p = false := by
  induction l with
  | nil => rfl
  | cons a t ih => simp [List.any_cons, hwarn, ih]

theorem jsonTrace_any {p : Ev → Bool} (hinit : p Ev.initFallbackDir = false)
    (hmd : ∀ s, p (Ev.resolveMetadata s) = false) (f : Flags) (d : DlEnv) (pre : List Ev) :
    (jsonTrace f d pre).any p =
      (pre.any p || ((fetchOrchestrator (policyOf f) d.orch).1.map Ev.fetch).any p) := by
  unfold jsonTrace
  by_cases h1 : enableFallbackFlag f = true <;> by_cases h2 : enableCacheFlag f = true <;>
    simp [h1, h2, List.any_append, hinit, hmd]

theorem jsonTrace_any_noCache {p : Ev → Bool} (hinit : p Ev.initFallbackDir = false)
    (f : Flags) (d : DlEnv) (pre : List Ev) (hcache : enableCacheFlag f = false) :
    (jsonTrace f d pre).any p =
      (pre.any p || ((fetchOrchestrator (policyOf f) d.orch).1.map Ev.fetch).any p) := by
  unfold jsonTrace
  by_cases h1 : enableFallbackFlag f = true <;>
    simp [h1, hcache, List.any_append, hinit]

theorem jsonBranch_shape (f : Flags) (d : DlEnv) (pre : List Ev) :
    ∃ s, (jsonBranch f d pre).1 = jsonTrace f d pre ++ s ∧ s.all isOutputPhaseEv = true := by
  unfold jsonBranch
  rcases ho : (fetchOrchestrator (policyOf f) d.orch).2 with payload | _
  · simp only [ho]
    exact afterBody_shape f d _ payload
  · exact ⟨[], by simp, rfl⟩

theorem jsonBranch_any_eq {p : Ev → Bool} (hout : ∀ e, isOutputPhaseEv e = true → p e = false)
    (f : Flags) (d : DlEnv) (pre : List Ev) :
    (jsonBranch f d pre).1.any p = (jsonTrace f d pre).any p := by
  obtain ⟨s, hs, hall⟩ := jsonBranch_shape f d pre
  rw [hs, List.any_append, any_eq_false_of_all_disjoint hout s hall, Bool.or_false]

theorem otherFormatBranch_shape (f : Flags) (d : DlEnv) (pre : List Ev) :
    ∃ s, (otherFormatBranch f d pre).1 =
      (pre ++ (downloadWarnFlags.filter (fun fl => f.changed.contains fl)).map Ev.warnFlag
          ++ [Ev.remoteDownloadCall]) ++ s ∧ s.all isOutputPhaseEv = true := by
  unfold otherFormatBranch
  rcases hr : d.remoteDownload with _ | body <;> simp only [hr]
  · exact ⟨[], by simp, rfl⟩
  · exact afterBody_shape f d _ body

theorem otherFormatBranch_any_false {p : Ev → Bool}
    (hout : ∀ e, isOutputPhaseEv e = true → p e = false)
    (hwarn : ∀ s, p (Ev.warnFlag s) = false)
    (hrc : p Ev.remoteDownloadCall = false)
    (f : Flags) (d : DlEnv) (pre : List Ev) (hpre : pre.any p = false) :
    (otherFormatBranch f d pre).1.any p = false := by
  obtain ⟨s, hs, hall⟩ := otherFormatBranch_shape f d pre
  rw [hs, List.any_append, any_eq_false_of_all_disjoint hout s hall, Bool.or_false,
      List.any_append, List.any_append, hpre, any_map_warnFlag_false hwarn]
  simp [List.any_cons, hrc]

theorem downloadModel_any_eq {p : Ev → Bool}
    (hout : ∀ e, isOutputPhaseEv e = true → p e = false)
    (hinit : p Ev.initFallbackDir = false)
    (hmd : ∀ s, p (Ev.resolveMetadata s) = false)
    (hwarn : ∀ s, p (Ev.warnFlag s) = false)
    (hrc : p Ev.remoteDownloadCall = false)
    (f : Flags) (d : DlEnv) :
    (downloadSecretsModel f d).1.any p =
      (if d.token ≠ "" ∧ resolveFormat f.formatString = some SecretsFormat.json ∧
          d.fallbackPassphrase ≠ ""
       then ((fetchOrchestrator (policyOf f) d.orch).1.map Ev.fetch).any p
       else false) := by
  unfold downloadSecretsModel
  by_cases ht : d.token = ""
  · simp [ht]
  · rcases hf : resolveFormat f.formatString with _ | fmt
    · simp [ht, hf]
    · by_cases hfp : d.fallbackPassphrase = ""
      · simp [ht, hf, hfp, hout (Ev.passRead "fallback-passphrase") rfl]
      · by_cases hj : fmt = SecretsFormat.json
        · subst hj
          simp [ht, hf, hfp, jsonBranch_any_eq hout, jsonTrace_any hinit hmd,
                hout (Ev.passRead "fallback-passphrase") rfl]
        · have hfj : ¬(resolveFormat f.formatString = some SecretsFormat.json) := by
            rw [hf]
            simp [hj]
          have hb : (otherFormatBranch f d [Ev.passRead "fallback-passphrase"]).1.any p = false :=
            otherFormatBranch_any_false hout hwarn hrc f d _
              (by simp [List.any_cons, hout (Ev.passRead "fallback-passphrase") rfl])
          simp [ht, hf, hfp, hj, hfj, hb]

theorem any_map_fetch_false {p : Ev → Bool} (hfetch : ∀ fe, p (Ev.fetch fe) = false)
    (l : List FEv) : (l.map Ev.fetch).any p = false := by
  induction l with
  | nil => rfl
  | cons a t ih => simp [List.any_cons, hfetch, ih]

theorem afterBody_empty_pass_any {p : Ev → Bool} (f : Flags) (d : DlEnv) (pre : List Ev)
    (body : List Nat) (hpass : d.passphrase = "")
    (hp : p (Ev.passRead "passphrase") = false) (hprint : ∀ b, p (Ev.printStdout b) = false) :
    (afterBody f d pre body).1.any p = pre.any p := by
  unfold afterBody
  split
  · simp [List.any_append, hprint]
  · split
    · split
      · simp [afterPath, hpass, List.any_append, List.any_cons, hp]
      · rfl
    · simp [afterPath, hpass, List.any_append, List.any_cons, hp]

theorem afterBody_empty_pass_fatal (f : Flags) (d : DlEnv) (pre : List Ev) (body : List Nat)
    (hpass : d.passphrase = "") (hnf : f.noFile = false) :
    (afterBody f d pre body).2 = .fatal := by
  unfold afterBody
  rw [if_neg (by simp [hnf])]
  split
  · split
    · simp [afterPath, hpass]
    · rfl
  · simp [afterPath, hpass]

theorem downloadModel_empty_pass_any {p : Ev → Bool} (f : Flags) (d : DlEnv)
    (hpass : d.passphrase = "")
    (hfbp : p (Ev.passRead "fallback-passphrase") = false)
    (hdp : p (Ev.passRead "passphrase") = false)
    (hprint : ∀ b, p (Ev.printStdout b) = false)
    (hinit : p Ev.initFallbackDir = false)
    (hmd : ∀ s, p (Ev.resolveMetadata s) = false)
    (hwarn : ∀ s, p (Ev.warnFlag s) = false)
    (hrc : p Ev.remoteDownloadCall = false)
    (hfetch : ∀ fe, p (Ev.fetch fe) = false) :
    (downloadSecretsModel f d).1.any p = false := by
  unfold downloadSecretsModel
  by_cases ht : d.token = ""
  · simp [ht]
  · rcases hfm : resolveFormat f.formatString with _ | fmt
    · simp [ht, hfm]
    · by_cases hfp : d.fallbackPassphrase = ""
      · simp [ht, hfm, hfp, hfbp]
      · by_cases hj : fmt = SecretsFormat.json
        · subst hj
          simp only [ht, hfm, hfp, if_neg, ite_false, ite_true, if_true, eq_self_iff_true,
                     if_false, Option.some.injEq, reduceIte]
          unfold jsonBranch
          rcases ho : (fetchOrchestrator (policyOf f) d.orch).2 with payload | _
          · simp only [ho]
            rw [afterBody_empty_pass_any f d _ payload hpass hdp hprint,
                jsonTrace_any hinit hmd, any_map_fetch_false hfetch]
            simp [List.any_cons, hfbp]
          · simp only [ho]
            rw [jsonTrace_any hinit hmd, any_map_fetch_false hfetch]
            simp [List.any_cons, hfbp]
        · simp only [ht, hfm, hfp, hj, if_neg, ite_false, ite_true, if_true,
                     eq_self_iff_true, if_false, reduceIte]
          unfold otherFormatBranch
          rcases hr : d.remoteDownload with _ | body
          · simp only [hr]
            rw [List.any_append, List.any_append, any_map_warnFlag_false hwarn]
            simp [List.any_cons, hfbp, hrc]
          · simp only [hr]
            rw [afterBody_empty_pass_any f d _ body hpass hdp hprint,
                List.any_append, List.any_append, any_map_warnFlag_false hwarn]
            simp [List.any_cons, hfbp, hrc]

theorem downloadModel_empty_pass_fatal (f : Flags) (d : DlEnv)
    (hpass : d.passphrase = "") (hnf : f.noFile = false) :
    (downloadSecretsModel f d).2 = .fatal := by
  unfold downloadSecretsModel
  by_cases ht : d.token = ""
  · simp [ht]
  · rcases hfm : resolveFormat f.formatString with _ | fmt
    · simp [ht, hfm]
    · by_cases hfp : d.fallbackPassphrase = ""
      · simp [ht, hfm, hfp]
      · by_cases hj : fmt = SecretsFormat.json
        · subst hj
          simp only [ht, hfm, hfp, if_neg, ite_false, ite_true, if_true, eq_self_iff_true,
                     if_false, Option.some.injEq, reduceIte]
          unfold jsonBranch
          rcases ho : (fetchOrchestrator (policyOf f) d.orch).2 with payload | _
          · simp only [ho]
            exact afterBody_empty_pass_fatal f d _ payload hpass hnf
          · simp only [ho]
        · simp only [ht, hfm, hfp, hj, if_neg, ite_false, ite_true, if_true,
                     eq_self_iff_true, if_false, reduceIte]
          unfold otherFormatBranch
          rcases hr : d.remoteDownload with _ | body
          · simp only [hr]
          · simp only [hr]
            exact afterBody_empty_pass_fatal f d _ body hpass hnf

theorem isCacheWriteEv_fetch (fe : FEv) : isCacheWriteEv (Ev.fetch fe) = isCacheWriteF fe := by
  cases fe <;> rfl

theorem isCacheWriteEv_not_output : ∀ e, isOutputPhaseEv e = true → isCacheWriteEv e = false := by
  intro e he
  cases e <;> simp_all [isOutputPhaseEv, isCacheWriteEv]

theorem isCacheAccessEv_not_output : ∀ e, isOutputPhaseEv e = true → isCacheAccessEv e = false := by
  intro e he
  cases e <;> simp_all [isOutputPhaseEv, isCacheAccessEv]

theorem isNetworkEv_not_output : ∀ e, isOutputPhaseEv e = true → isNetworkEv e = false := by
  intro e he
  cases e <;> simp_all [isOutputPhaseEv, isNetworkEv]

theorem isFetchEv_not_output : ∀ e, isOutputPhaseEv e = true → isFetchEv e = false := by
  intro e he
  cases e <;> simp_all [isOutputPhaseEv, isFetchEv]

theorem isMetaResolveEv_not_output : ∀ e, isOutputPhaseEv e = true → isMetaResolveEv e = false := by
  intro e he
  cases e <;> simp_all [isOutputPhaseEv, isMetaResolveEv]

theorem isInitFallbackEv_not_output : ∀ e, isOutputPhaseEv e = true → isInitFallbackEv e = false := by
  intro e he
  cases e <;> simp_all [isOutputPhaseEv, isInitFallbackEv]

theorem warnFlagsOf_append (a b : List Ev) :
    warnFlagsOf (a ++ b) = warnFlagsOf a ++ warnFlagsOf b :=
  List.filterMap_append a b _

theorem warnFlagsOf_output_nil (s : List Ev) (hs : s.all isOutputPhaseEv = true) :
    warnFlagsOf s = [] := by
  induction s with
  | nil => rfl
  | cons a t ih =>
    simp only [List.all_cons, Bool.and_eq_true] at hs
    have ht := ih hs.2
    cases a <;> simp_all [warnFlagsOf, isOutputPhaseEv]

theorem warnFlagsOf_map (l : List String) : warnFlagsOf (l.map Ev.warnFlag) = l := by
  induction l with
  | nil => rfl
  | cons a t ih => simp_all [warnFlagsOf]

theorem jsonTrace_mem_md (f : Flags) (d : DlEnv) (pre : List Ev)
    (hc : enableCacheFlag f = true) :
    Ev.resolveMetadata d.metadataFilePath ∈ jsonTrace f d pre := by
  unfold jsonTrace metadataPathOf
  simp [hc, List.mem_append]

theorem afterBody_noFile (f : Flags) (d : DlEnv) (pre : List Ev) (body : List Nat)
    (hnf : f.noFile = true) :
    afterBody f d pre body = (pre ++ [Ev.printStdout body], .completed) := by
  unfold afterBody
  rw [if_pos (by simp [hnf])]

theorem downloadModel_noFile_any {p : Ev → Bool} (f : Flags) (d : DlEnv)
    (hnf : f.noFile = true)
    (hfbp : p (Ev.passRead "fallback-passphrase") = false)
    (hprint : ∀ b, p (Ev.printStdout b) = false)
    (hinit : p Ev.initFallbackDir = false)
    (hmd : ∀ s, p (Ev.resolveMetadata s) = false)
    (hwarn : ∀ s, p (Ev.warnFlag s) = false)
    (hrc : p Ev.remoteDownloadCall = false)
    (hfetch : ∀ fe, p (Ev.fetch fe) = false) :
    (downloadSecretsModel f d).1.any p = false := by
  unfold downloadSecretsModel
  by_cases ht : d.token = ""
  · simp [ht]
  · rcases hfm : resolveFormat f.formatString with _ | fmt
    · simp [ht, hfm]
    · by_cases hfp : d.fallbackPassphrase = ""
      · simp [ht, hfm, hfp, hfbp]
      · by_cases hj : fmt = SecretsFormat.json
        · subst hj
          simp only [ht, hfm, hfp, ite_false, ite_true, eq_self_iff_true, reduceIte]
          unfold jsonBranch
          rcases ho : (fetchOrchestrator (policyOf f) d.orch).2 with payload | _
          · simp only [ho]
            rw [afterBody_noFile f d _ payload hnf, List.any_append,
                jsonTrace_any hinit hmd, any_map_fetch_false hfetch]
            simp [List.any_cons, hfbp, hprint]
          · simp only [ho]
            rw [jsonTrace_any hinit hmd, any_map_fetch_false hfetch]
            simp [List.any_cons, hfbp]
        · simp only [ht, hfm, hfp, hj, ite_false, ite_true, eq_self_iff_true, reduceIte]
          unfold otherFormatBranch
          rcases hr : d.remoteDownload with _ | body
          · simp only [hr]
            rw [List.any_append, List.any_append, any_map_warnFlag_false hwarn]
            simp [List.any_cons, hfbp, hrc]
          · simp only [hr]
            rw [afterBody_noFile f d _ body hnf, List.any_append, List.any_append,
                List.any_append, any_map_warnFlag_false hwarn]
            simp [List.any_cons, hfbp, hrc, hprint]

theorem downloadModel_noFile_shape (f : Flags) (d : DlEnv) (hnf : f.noFile = true) :
    (downloadSecretsModel f d).2 = .fatal ∨
    ∃ l b, downloadSecretsModel f d = (l ++ [Ev.printStdout b], .completed) := by
  unfold downloadSecretsModel
  by_cases ht : d.token = ""
  · rw [if_pos ht]
    left
    rfl
  · rw [if_neg ht]
    rcases hfm : resolveFormat f.formatString with _ | fmt
    · left
      rfl
    · by_cases hfp : d.fallbackPassphrase = ""
      · left
        simp [hfp]
      · by_cases hj : fmt = SecretsFormat.json
        · subst hj
          simp only [hfp, ite_false, eq_self_iff_true, ite_true, if_false, if_true, reduceIte]
          unfold jsonBranch
          rcases ho : (fetchOrchestrator (policyOf f) d.orch).2 with payload | _
          · right
            exact ⟨jsonTrace f d [Ev.passRead "fallback-passphrase"], payload,
                   afterBody_noFile f d _ payload hnf⟩
          · left
            rfl
        · simp only [hfp, hj, ite_false, eq_self_iff_true, ite_true, if_false, if_true,
                     reduceIte]
          unfold otherFormatBranch
          rcases hr : d.remoteDownload with _ | body
          · left
            rfl
          · right
            exact ⟨[Ev.passRead "fallback-passphrase"] ++
                     (downloadWarnFlags.filter (fun fl => f.changed.contains fl)).map Ev.warnFlag
                     ++ [Ev.remoteDownloadCall], body,
                   afterBody_noFile f d _ body hnf⟩

theorem isNetworkEv_fetch (fe : FEv) : isNetworkEv (Ev.fetch fe) = isNetworkF fe := by
  cases fe <;> rfl

/-- With `fallback-only` set, no branch of the orchestrator emits a cache
write: fallback-disabled runs a plain remote fetch, and otherwise the
cache-only branch is taken, which only reads. -/
theorem orch_fallbackOnly_no_write (pol : FetchPolicy) (oenv : OrchEnv)
    (hp : pol.fallbackOnly = true) :
    (fetchOrchestrator pol oenv).1.any isCacheWriteF = false := by
  unfold fetchOrchestrator
  by_cases hfe : pol.fallbackEnabled = false
  · rw [if_pos hfe]
    rcases hr : oenv.remoteNoToken with _ | ⟨p, t⟩ <;> simp [hr, isCacheWriteF]
  · rw [if_neg hfe, if_pos hp]
    rcases hc : oenv.cacheEntry with _ | _ | p <;> simp [hc, isCacheWriteF]

/-- C1: when the `no-fallback` flag is set, the effective cache-enabled
value that `downloadSecrets` passes to the fetch orchestrator is `false`
regardless of the `no-cache` flag (`secrets.go` lines 257-258: `enableCache
:= enableFallback && !noCache`). -/
theorem C1_noFallback_forces_cache_off (f : Flags) (h : f.noFallback = true) :
    (policyOf f).cacheEnabled = false := by
  simp [policyOf, enableCacheFlag, enableFallbackFlag, h]

theorem C1_noFallback_forces_cache_off_witness :
    { baseFlags with noFallback := true }.noFallback = true ∧
    (policyOf { baseFlags with noFallback := true }).cacheEnabled = false :=
  ⟨rfl, C1_noFallback_forces_cache_off { baseFlags with noFallback := true } rfl⟩

/-- C6: for every payload and every non-empty passphrase, encryption
followed by decryption under the same passphrase returns exactly the
original payload. -/
theorem C6_crypto_round_trip (K : String) (P : List Nat) (h : K ≠ "") :
    ∃ B, cryptoEncrypt K P = .ok B ∧ cryptoDecrypt K B = .ok P := by
  refine ⟨{ version := 1, salt := 0, nonce := 0,
            ct := P.map (fun b => b + deriveKey K), tagKey := K,
            tagCt := P.map (fun b => b + deriveKey K) }, ?_, ?_⟩
  · simp [cryptoEncrypt, h]
  · simp [cryptoDecrypt, h, List.map_map, Function.comp_def, Nat.add_sub_cancel]

theorem C6_crypto_round_trip_witness :
    "p@ss" ≠ "" ∧
    ∃ B, cryptoEncrypt "p@ss" [1, 2, 3] = .ok B ∧ cryptoDecrypt "p@ss" B = .ok [1, 2, 3] :=
  ⟨by decide, C6_crypto_round_trip "p@ss" [1, 2, 3] (by decide)⟩

/-- C7: decrypting under a passphrase different from the one a blob was
encrypted with fails closed with an `AuthenticationError` and never
yields plaintext. -/
theorem C7_crypto_fail_closed (K K2 : String) (P : List Nat) (B : Blob)
    (hne : K ≠ K2) (henc : cryptoEncrypt K2 P = .ok B) :
    cryptoDecrypt K B = .error .authenticationError := by
  by_cases hK : K = ""
  · simp [cryptoDecrypt, hK]
  · have hK2 : K2 ≠ "" := by
      intro hc
      rw [hc] at henc
      simp [cryptoEncrypt] at henc
    rw [cryptoEncrypt, if_neg hK2] at henc
    simp only [Except.ok.injEq] at henc
    have hB : B.tagKey = K2 := by rw [← henc]
    rw [cryptoDecrypt, if_neg hK, hB, if_neg (Ne.symm hne)]

theorem C7_crypto_fail_closed_witness :
    "alpha" ≠ "beta" ∧
    cryptoDecrypt "alpha"
      { version := 1, salt := 0, nonce := 0, ct := [10], tagKey := "beta", tagCt := [10] } =
      .error .authenticationError :=
  ⟨by decide,
   C7_crypto_fail_closed "alpha" "beta" [5]
     { version := 1, salt := 0, nonce := 0, ct := [10], tagKey := "beta", tagCt := [10] }
     (by decide) rfl⟩

/-- C4: a policy with `fallback-only` set never writes the fallback cache
file, whether or not `fallback-readonly` was explicitly set — neither in
a full `downloadSecrets` run nor in any orchestrator run. -/
theorem C4_fallbackOnly_implies_readonly (f : Flags) (d : DlEnv) (pol : FetchPolicy)
    (oenv : OrchEnv) (hf : f.fallbackOnly = true) (hp : pol.fallbackOnly = true) :
    (downloadSecretsModel f d).1.any isCacheWriteEv = false ∧
    (fetchOrchestrator pol oenv).1.any isCacheWriteF = false := by
  refine ⟨?_, orch_fallbackOnly_no_write pol oenv hp⟩
  rw [downloadModel_any_eq isCacheWriteEv_not_output rfl (fun _ => rfl) (fun _ => rfl) rfl f d]
  split
  · rw [map_fetch_any isCacheWriteEv_fetch,
        orch_fallbackOnly_no_write (policyOf f) d.orch (by simp [policyOf, hf])]
  · rfl

theorem C4_fallbackOnly_implies_readonly_witness :
    fallbackOnlyFlags.fallbackOnly = true ∧
    (downloadSecretsModel fallbackOnlyFlags baseDlEnv).1.any isCacheWriteEv = false ∧
    (fetchOrchestrator cacheOnlyPolicy baseOrchEnv).1.any isCacheWriteF = false :=
  ⟨rfl,
   (C4_fallbackOnly_implies_readonly fallbackOnlyFlags baseDlEnv cacheOnlyPolicy baseOrchEnv
      rfl rfl).1,
   (C4_fallbackOnly_implies_readonly fallbackOnlyFlags baseDlEnv cacheOnlyPolicy baseOrchEnv
      rfl rfl).2⟩

/-- C5 counterexample: an invocation (and a policy) with `fallback-only`
set but fallback disabled takes the remote-only branch, so a network
call is attempted; the unconditional "never attempts a network
call" of the claim is false. -/
theorem C5_counterexample :
    fallbackOnlyNoFallbackPolicy.fallbackOnly = true ∧
    (fetchOrchestrator fallbackOnlyNoFallbackPolicy baseOrchEnv).1.any isNetworkF = true ∧
    fallbackOnlyNoFallbackFlags.fallbackOnly = true ∧
    (downloadSecretsModel fallbackOnlyNoFallbackFlags baseDlEnv).1.any isNetworkEv = true := by
  refine ⟨rfl, rfl, rfl, rfl⟩

/-- C5 amended: with `fallback-only` set and fallback enabled, the
orchestrator performs no network call regardless of `cache-enabled` and
`fallback-readonly`; its whole run is a single cache read whose outcome
determines the result. -/
theorem C5_amended_cache_only (pol : FetchPolicy) (oenv : OrchEnv)
    (h1 : pol.fallbackOnly = true) (h2 : pol.fallbackEnabled = true) :
    fetchOrchestrator pol oenv =
      ([FEv.cacheRead],
        match oenv.cacheEntry with
        | .ok p => FetchOutcome.done p
        | _ => FetchOutcome.fatal) ∧
    (fetchOrchestrator pol oenv).1.any isNetworkF = false := by
  have hmain : fetchOrchestrator pol oenv =
      ([FEv.cacheRead],
        match oenv.cacheEntry with
        | .ok p => FetchOutcome.done p
        | _ => FetchOutcome.fatal) := by
    unfold fetchOrchestrator
    rw [if_neg (by simp [h2]), if_pos h1]
    rcases oenv.cacheEntry with _ | _ | p <;> rfl
  exact ⟨hmain, by rw [hmain]; rfl⟩

theorem C5_amended_cache_only_witness :
    cacheOnlyPolicy.fallbackOnly = true ∧ cacheOnlyPolicy.fallbackEnabled = true ∧
    (fetchOrchestrator cacheOnlyPolicy baseOrchEnv).1.any isNetworkF = false :=
  ⟨rfl, rfl, (C5_amended_cache_only cacheOnlyPolicy baseOrchEnv rfl rfl).2⟩

/-- C2 counterexample: with every flag at its default (in particular
`no-exit-on-write-failure` not set), a fallback-file write failure makes
the whole invocation fatal, not a mere warning — the "warning by
default" reading of the claim is false on `secrets.go` line 261, which turns the *absence* of
`no-exit-on-write-failure` into `exitOnWriteFailure = true`. -/
theorem C2_counterexample :
    baseFlags.noExitOnWriteFailure = false ∧
    Ev.fetch (FEv.cacheWrite false) ∈ (downloadSecretsModel baseFlags writeFailDlEnv).1 ∧
    Ev.fetch FEv.warnWriteFailure ∉ (downloadSecretsModel baseFlags writeFailDlEnv).1 ∧
    (downloadSecretsModel baseFlags writeFailDlEnv).2 = .fatal := by
  refine ⟨rfl, by decide, by decide, rfl⟩

/-- C2 amended: the exit-on-write-failure policy defaults to *on*: the
policy value is the negation of the `no-exit-on-write-failure` flag, and
a failed fallback write is fatal exactly when that policy value is true;
only when the flag is set is the failure reported as a warning and the
payload still returned. -/
theorem C2_amended_write_failure (f : Flags) (pol : FetchPolicy) (oenv : OrchEnv)
    (p : List Nat) (hro : pol.fallbackReadonly = false) (hw : oenv.writeOk = false) :
    (policyOf f).exitOnWriteFailure = (!f.noExitOnWriteFailure) ∧
    handleChanged pol oenv p =
      (if pol.exitOnWriteFailure then ([FEv.cacheWrite false], FetchOutcome.fatal)
       else ([FEv.cacheWrite false, FEv.warnWriteFailure], FetchOutcome.done p)) := by
  refine ⟨rfl, ?_⟩
  unfold handleChanged
  rw [if_neg (by simp [hro]), if_neg (by simp [hw])]

theorem C2_amended_write_failure_witness :
    writeFailOrchEnv.writeOk = false ∧
    handleChanged cacheOnlyPolicy writeFailOrchEnv [7] =
      ([FEv.cacheWrite false], FetchOutcome.fatal) :=
  ⟨rfl, by
    have h := (C2_amended_write_failure baseFlags cacheOnlyPolicy writeFailOrchEnv [7]
      rfl rfl).2
    simpa using h⟩

/-- C3 counterexample: with a non-empty fallback passphrase but an empty
download-file passphrase, the invocation performs cache accesses (the
fetch phase ran to completion) before terminating fatally — so an empty
resolved passphrase does not always abort "before any cache access". -/
theorem C3_counterexample :
    emptyPassDlEnv.passphrase = "" ∧
    (downloadSecretsModel baseFlags emptyPassDlEnv).1.any isCacheAccessEv = true ∧
    (downloadSecretsModel baseFlags emptyPassDlEnv).2 = .fatal := by
  refine ⟨rfl, rfl, rfl⟩

/-- C3 amended: an empty resolved passphrase is always fatal and never
reaches encryption.  An empty fallback-file passphrase aborts before any
cache access, encryption, or output write; an empty download-file
passphrase never permits output encryption or an output-file write and,
when an output file was requested, the invocation terminates fatally
(though the fetch/cache phase has already run). -/
theorem C3_amended_empty_passphrase (f : Flags) (d : DlEnv) :
    (d.fallbackPassphrase = "" →
      (downloadSecretsModel f d).2 = .fatal ∧
      (downloadSecretsModel f d).1.any isCacheAccessEv = false ∧
      (downloadSecretsModel f d).1.any isEncryptEv = false ∧
      (downloadSecretsModel f d).1.any isOutputWriteEv = false) ∧
    (d.passphrase = "" →
      (downloadSecretsModel f d).1.any isEncryptEv = false ∧
      (downloadSecretsModel f d).1.any isOutputWriteEv = false ∧
      (f.noFile = false → (downloadSecretsModel f d).2 = .fatal)) := by
  constructor
  · intro hfp
    unfold downloadSecretsModel
    by_cases ht : d.token = ""
    · simp [ht]
    · rcases hfm : resolveFormat f.formatString with _ | fmt
      · simp [ht, hfm]
      · simp [ht, hfm, hfp, isCacheAccessEv, isEncryptEv, isOutputWriteEv]
  · intro hpass
    refine ⟨downloadModel_empty_pass_any f d hpass rfl rfl (fun _ => rfl) rfl
              (fun _ => rfl) (fun _ => rfl) rfl (fun _ => rfl),
            downloadModel_empty_pass_any f d hpass rfl rfl (fun _ => rfl) rfl
              (fun _ => rfl) (fun _ => rfl) rfl (fun _ => rfl),
            fun hnf => downloadModel_empty_pass_fatal f d hpass hnf⟩

theorem C3_amended_empty_passphrase_witness :
    ((downloadSecretsModel baseFlags emptyFallbackPassDlEnv).2 = .fatal ∧
     (downloadSecretsModel baseFlags emptyFallbackPassDlEnv).1.any isCacheAccessEv = false) ∧
    ((downloadSecretsModel baseFlags emptyPassDlEnv).1.any isEncryptEv = false ∧
     (downloadSecretsModel baseFlags emptyPassDlEnv).2 = .fatal) :=
  ⟨⟨((C3_amended_empty_passphrase baseFlags emptyFallbackPassDlEnv).1 rfl).1,
    ((C3_amended_empty_passphrase baseFlags emptyFallbackPassDlEnv).1 rfl).2.1⟩,
   ⟨((C3_amended_empty_passphrase baseFlags emptyPassDlEnv).2 rfl).1,
    ((C3_amended_empty_passphrase baseFlags emptyPassDlEnv).2 rfl).2.2 rfl⟩⟩

/-- C8: the freshness metadata is consulted exactly when cache-enabled —
`downloadSecrets` resolves the metadata file path only under
`enableCache` and otherwise leaves it empty (`secrets.go` lines 300-306),
and in the remote-with-fallback state the orchestrator presents the
stored token only when `cache-enabled`, presenting none otherwise. -/
theorem C8_metadata_iff_cache_enabled (f : Flags) (d : DlEnv) (pol : FetchPolicy)
    (oenv : OrchEnv) (hfe : pol.fallbackEnabled = true) (hfo : pol.fallbackOnly = false)
    (ht : d.token ≠ "") (hfmt : resolveFormat f.formatString = some SecretsFormat.json)
    (hfp : d.fallbackPassphrase ≠ "") :
    (enableCacheFlag f = true →
      Ev.resolveMetadata d.metadataFilePath ∈ (downloadSecretsModel f d).1) ∧
    (enableCacheFlag f = false →
      metadataPathOf f d = "" ∧
      (downloadSecretsModel f d).1.any isMetaResolveEv = false) ∧
    (fetchOrchestrator pol oenv).1.head? =
      some (FEv.networkCall (presentedToken pol oenv)) ∧
    (pol.cacheEnabled = false → presentedToken pol oenv = none) := by
  have hmodel : downloadSecretsModel f d = jsonBranch f d [Ev.passRead "fallback-passphrase"] := by
    unfold downloadSecretsModel
    rw [if_neg ht, hfmt]
    simp [hfp]
  refine ⟨?_, ?_, ?_, ?_⟩
  · intro hc
    rw [hmodel]
    obtain ⟨s, hs, _⟩ := jsonBranch_shape f d [Ev.passRead "fallback-passphrase"]
    rw [hs, List.mem_append]
    exact Or.inl (jsonTrace_mem_md f d _ hc)
  · intro hc
    refine ⟨by simp [metadataPathOf, hc], ?_⟩
    rw [hmodel, jsonBranch_any_eq isMetaResolveEv_not_output,
        jsonTrace_any_noCache rfl f d _ hc, any_map_fetch_false (fun _ => rfl)]
    rfl
  · unfold fetchOrchestrator
    rw [if_neg (by simp [hfe]), if_neg (by simp [hfo])]
    rcases hpt : presentedToken pol oenv with _ | t
    · unfold fullFetch
      rcases hr : oenv.remoteNoToken with _ | pr <;> simp [hr]
    · rcases hw : oenv.remoteWithToken with _ | ⟨p, t2⟩ | _
      · rcases hce : oenv.cacheEntry with _ | _ | p <;> simp [hce]
      · simp
      · simp
  · intro hc
    unfold presentedToken
    rw [hc]
    rfl

theorem C8_metadata_iff_cache_enabled_witness :
    enableCacheFlag baseFlags = true ∧
    Ev.resolveMetadata baseDlEnv.metadataFilePath ∈
      (downloadSecretsModel baseFlags baseDlEnv).1 ∧
    (fetchOrchestrator (policyOf baseFlags) baseOrchEnv).1.head? =
      some (FEv.networkCall (presentedToken (policyOf baseFlags) baseOrchEnv)) :=
  ⟨rfl,
   (C8_metadata_iff_cache_enabled baseFlags baseDlEnv (policyOf baseFlags) baseOrchEnv
      rfl rfl (by decide) rfl (by decide)).1 rfl,
   (C8_metadata_iff_cache_enabled baseFlags baseDlEnv (policyOf baseFlags) baseOrchEnv
      rfl rfl (by decide) rfl (by decide)).2.2.1⟩

/-- C9 counterexample: with env format and the fallback-related flag
`no-cache` explicitly changed, the run logs no flag warning at all — the
warning list of the code (`secrets.go` line 318) covers only four of the
fallback flags and omits `no-cache`, `no-fallback` and
`fallback-passphrase` (all grouped under the `fallback flags`
comment of the source itself, lines 401-408). -/
theorem C9_counterexample :
    envFormatFlags.formatString = "env" ∧
    envFormatFlags.changed = ["no-cache"] ∧
    (downloadSecretsModel envFormatFlags baseDlEnv).1.any isWarnFlagEv = false := by
  refine ⟨rfl, rfl, rfl⟩

/-- C9 amended: for a non-JSON format the fallback and cache machinery
is bypassed entirely (no orchestrator events, no fallback directory
initialisation, no metadata resolution), a warning is logged exactly for
each changed flag among `fallback`, `fallback-only`, `fallback-readonly`
and `no-exit-on-write-failure`, the body is fetched directly from the
remote service, and a remote error is fatal. -/
theorem C9_amended_non_json_bypass (f : Flags) (d : DlEnv) (fmt : SecretsFormat)
    (hfmt : resolveFormat f.formatString = some fmt) (hne : fmt ≠ SecretsFormat.json)
    (ht : d.token ≠ "") (hfp : d.fallbackPassphrase ≠ "") :
    warnFlagsOf (downloadSecretsModel f d).1 =
      downloadWarnFlags.filter (fun fl => f.changed.contains fl) ∧
    (downloadSecretsModel f d).1.any isFetchEv = false ∧
    (downloadSecretsModel f d).1.any isInitFallbackEv = false ∧
    (downloadSecretsModel f d).1.any isMetaResolveEv = false ∧
    Ev.remoteDownloadCall ∈ (downloadSecretsModel f d).1 ∧
    (d.remoteDownload = none → (downloadSecretsModel f d).2 = .fatal) := by
  have hmodel : downloadSecretsModel f d =
      otherFormatBranch f d [Ev.passRead "fallback-passphrase"] := by
    unfold downloadSecretsModel
    rw [if_neg ht, hfmt]
    simp [hfp, hne]
  obtain ⟨s, hs, hall⟩ := otherFormatBranch_shape f d [Ev.passRead "fallback-passphrase"]
  refine ⟨?_, ?_, ?_, ?_, ?_, ?_⟩
  · rw [hmodel, hs, warnFlagsOf_append, warnFlagsOf_output_nil s hall, List.append_nil,
        warnFlagsOf_append, warnFlagsOf_append, warnFlagsOf_map]
    simp [warnFlagsOf]
  · rw [hmodel]
    exact otherFormatBranch_any_false isFetchEv_not_output (fun _ => rfl) rfl f d _ rfl
  · rw [hmodel]
    exact otherFormatBranch_any_false isInitFallbackEv_not_output (fun _ => rfl) rfl f d _ rfl
  · rw [hmodel]
    exact otherFormatBranch_any_false isMetaResolveEv_not_output (fun _ => rfl) rfl f d _ rfl
  · rw [hmodel, hs, List.mem_append]
    refine Or.inl ?_
    rw [List.mem_append]
    exact Or.inr (by simp)
  · intro hr
    rw [hmodel]
    unfold otherFormatBranch
    rw [hr]

theorem C9_amended_non_json_bypass_witness :
    resolveFormat envFormatFlags.formatString = some SecretsFormat.env ∧
    warnFlagsOf (downloadSecretsModel envFormatFlags baseDlEnv).1 =
      downloadWarnFlags.filter (fun fl => envFormatFlags.changed.contains fl) ∧
    Ev.remoteDownloadCall ∈ (downloadSecretsModel envFormatFlags baseDlEnv).1 :=
  ⟨rfl,
   (C9_amended_non_json_bypass envFormatFlags baseDlEnv SecretsFormat.env rfl (by decide)
      (by decide) (by decide)).1,
   (C9_amended_non_json_bypass envFormatFlags baseDlEnv SecretsFormat.env rfl (by decide)
      (by decide) (by decide)).2.2.2.2.1⟩

/-- C10: with the `no-file` flag set, the fetched body is printed to
stdout and the download step never reads the output passphrase, never
encrypts, and never writes an output file; a run that completes ends
with exactly the stdout print. -/
theorem C10_noFile_prints_and_stops (f : Flags) (d : DlEnv) (hnf : f.noFile = true) :
    (downloadSecretsModel f d).1.any isEncryptEv = false ∧
    (downloadSecretsModel f d).1.any isOutputWriteEv = false ∧
    (downloadSecretsModel f d).1.any isDlPassReadEv = false ∧
    ((downloadSecretsModel f d).2 = .completed →
      ∃ l b, (downloadSecretsModel f d).1 = l ++ [Ev.printStdout b]) := by
  refine ⟨downloadModel_noFile_any f d hnf rfl (fun _ => rfl) rfl (fun _ => rfl)
            (fun _ => rfl) rfl (fun _ => rfl),
          downloadModel_noFile_any f d hnf rfl (fun _ => rfl) rfl (fun _ => rfl)
            (fun _ => rfl) rfl (fun _ => rfl),
          downloadModel_noFile_any f d hnf rfl (fun _ => rfl) rfl (fun _ => rfl)
            (fun _ => rfl) rfl (fun _ => rfl), ?_⟩
  intro hc
  rcases downloadModel_noFile_shape f d hnf with hfat | ⟨l, b, heq⟩
  · rw [hfat] at hc
    exact absurd hc (by simp)
  · exact ⟨l, b, by rw [heq]⟩

theorem C10_noFile_prints_and_stops_witness :
    noFileFlags.noFile = true ∧
    (downloadSecretsModel noFileFlags baseDlEnv).1.any isEncryptEv = false ∧
    ((downloadSecretsModel noFileFlags baseDlEnv).2 = .completed →
      ∃ l b, (downloadSecretsModel noFileFlags baseDlEnv).1 = l ++ [Ev.printStdout b]) :=
  ⟨rfl, (C10_noFile_prints_and_stops noFileFlags baseDlEnv rfl).1,
   (C10_noFile_prints_and_stops noFileFlags baseDlEnv rfl).2.2.2⟩

end Doppler
